import Mathlib

/-
  Verification development for the route-generation and authorization-binding
  engine of the fastify-openapi-glue plugin (src/index.js).

  The embedding is shallow: the plugin's pure logic is translated into Lean
  functions; the external collaborators excluded by the design document
  (the JWT verifier `jsonwebtoken`, the CIDR matcher `ip`, the HTTP server)
  are passed in as oracle functions; the in-place mutation of route objects
  is made explicit by returning updated records; JavaScript `undefined` is
  modelled with `Option` (and, inside JSON trees, with `Jv.null`).
-/

namespace OpenapiGlue

/- A JSON-like value, the shape of parsed OpenAPI schema trees.  `JvList` and
`JvObj` are the element and member spines of arrays and objects.  JavaScript
objects have unique keys; duplicate keys in `JvObj` are harmless for the
statements below. -/
mutual

inductive Jv where
  | str : String → Jv
  | num : Int → Jv
  | bool : Bool → Jv
  | null : Jv
  | arr : JvList → Jv
  | obj : JvObj → Jv

inductive JvList where
  | nil : JvList
  | cons : Jv → JvList → JvList

inductive JvObj where
  | nil : JvObj
  | cons : String → Jv → JvObj → JvObj

end

/-- `unknownFormats` membership test (src/index.js line 34): the JS condition
`schema[item].format && unknownFormats[schema[item].format]` holds exactly when
the `format` value is the string "int32" or "int64" (any other value either is
falsy or misses the `unknownFormats` map). -/
def isBadFmt : Jv → Bool
  | .str s => s == "int32" || s == "int64"
  | _ => false

/- `stripResponseFormats` (src/index.js lines 36-45) and its recursion.
The function iterates the entries of its argument; every entry whose value is
an object (or array: `typeof [] === 'object'`) has its `format` property
cleared to `undefined` when it is "int32"/"int64" (objects only; arrays carry
no `format` property), and is then visited recursively.  The argument's own
`format` entry is never cleared, only those of strict descendants.
`stripRootObj` handles the entries of the argument itself (no clearing at this
level beyond what happens inside `stripChild`); `stripChild` processes a value
in child position; `stripChildObj` clears-and-recurses the members of an
object in child position; a cleared entry becomes `Jv.null` (JS `undefined`). -/
mutual

def stripResponseFormats : Jv → Jv
  | .arr xs => .arr (stripChildList xs)
  | .obj kvs => .obj (stripRootObj kvs)
  | v => v

def stripRootObj : JvObj → JvObj
  | .nil => .nil
  | .cons k v rest => .cons k (stripChild v) (stripRootObj rest)

def stripChild : Jv → Jv
  | .arr xs => .arr (stripChildList xs)
  | .obj kvs => .obj (stripChildObj kvs)
  | v => v

def stripChildList : JvList → JvList
  | .nil => .nil
  | .cons v rest => .cons (stripChild v) (stripChildList rest)

def stripChildObj : JvObj → JvObj
  | .nil => .nil
  | .cons k v rest =>
    if k == "format" && isBadFmt v then .cons k .null (stripChildObj rest)
    else .cons k (stripChild v) (stripChildObj rest)

end

/- An object spine owns a `format` member whose value is in the unsupported
set. -/
def hasBadFmtEntry : JvObj → Bool
  | .nil => false
  | .cons k v rest => (k == "format" && isBadFmt v) || hasBadFmtEntry rest

/- `cleanAll v`: neither `v` nor any descendant carries a bad `format`
member.  `cleanAllList`/`cleanAllObj` are the spine versions. -/
mutual

def cleanAll : Jv → Bool
  | .arr xs => cleanAllList xs
  | .obj kvs => !hasBadFmtEntry kvs && cleanAllObj kvs
  | _ => true

def cleanAllList : JvList → Bool
  | .nil => true
  | .cons v rest => cleanAll v && cleanAllList rest

def cleanAllObj : JvObj → Bool
  | .nil => true
  | .cons _ v rest => cleanAll v && cleanAllObj rest

end

/- `cleanDesc v`: no strict descendant of `v` carries a bad `format` member
(`v`'s own members' values are descendants; `v`'s own `format` entry belongs
to `v` itself and is not constrained). -/
def cleanDesc : Jv → Bool
  | .arr xs => cleanAllList xs
  | .obj kvs => cleanAllObj kvs
  | _ => true

/- Projection deleting every `format` member everywhere in the tree; two
trees with equal projections agree on everything outside `format` members. -/
mutual

def eraseFmt : Jv → Jv
  | .arr xs => .arr (eraseFmtList xs)
  | .obj kvs => .obj (eraseFmtObj kvs)
  | v => v

def eraseFmtList : JvList → JvList
  | .nil => .nil
  | .cons v rest => .cons (eraseFmt v) (eraseFmtList rest)

def eraseFmtObj : JvObj → JvObj
  | .nil => .nil
  | .cons k v rest =>
    if k == "format" then eraseFmtObj rest
    else .cons k (eraseFmt v) (eraseFmtObj rest)

end

theorem isBadFmt_stripChild (v : Jv) : isBadFmt (stripChild v) = isBadFmt v := by
  cases v <;> simp [stripChild, isBadFmt]

mutual

theorem cleanAll_stripChild : ∀ v : Jv, cleanAll (stripChild v) = true
  | .str _ => by simp [stripChild, cleanAll]
  | .num _ => by simp [stripChild, cleanAll]
  | .bool _ => by simp [stripChild, cleanAll]
  | .null => by simp [stripChild, cleanAll]
  | .arr xs => by simp [stripChild, cleanAll, cleanAllList_stripChildList xs]
  | .obj kvs => by
    simp [stripChild, cleanAll, cleanAllObj_stripChildObj kvs,
      hasBadFmtEntry_stripChildObj kvs]

theorem cleanAllList_stripChildList : ∀ xs : JvList,
    cleanAllList (stripChildList xs) = true
  | .nil => by simp [stripChildList, cleanAllList]
  | .cons v rest => by
    simp [stripChildList, cleanAllList, cleanAll_stripChild v,
      cleanAllList_stripChildList rest]

theorem cleanAllObj_stripChildObj : ∀ kvs : JvObj,
    cleanAllObj (stripChildObj kvs) = true
  | .nil => by simp [stripChildObj, cleanAllObj]
  | .cons k v rest => by
    by_cases h : (k == "format" && isBadFmt v) = true
    · simp [stripChildObj, h, cleanAllObj, cleanAll,
        cleanAllObj_stripChildObj rest]
    · simp [stripChildObj, h, cleanAllObj, cleanAll_stripChild v,
        cleanAllObj_stripChildObj rest]

theorem hasBadFmtEntry_stripChildObj : ∀ kvs : JvObj,
    hasBadFmtEntry (stripChildObj kvs) = false
  | .nil => by simp [stripChildObj, hasBadFmtEntry]
  | .cons k v rest => by
    simp only [stripChildObj]
    split
    next h =>
      simp [hasBadFmtEntry, isBadFmt, hasBadFmtEntry_stripChildObj rest]
    next h =>
      have h2 : (k == "format" && isBadFmt v) = false := by
        cases hb : (k == "format" && isBadFmt v)
        · rfl
        · exact absurd hb h
      simp only [hasBadFmtEntry, hasBadFmtEntry_stripChildObj rest,
        Bool.or_false, isBadFmt_stripChild]
      exact h2

end

theorem cleanAllObj_stripRootObj : ∀ kvs : JvObj,
    cleanAllObj (stripRootObj kvs) = true
  | .nil => by simp [stripRootObj, cleanAllObj]
  | .cons k v rest => by
    simp [stripRootObj, cleanAllObj, cleanAll_stripChild v,
      cleanAllObj_stripRootObj rest]

/-- Main normalizer lemma: after `stripResponseFormats` no strict descendant
carries a bad `format` member. -/
theorem cleanDesc_stripResponseFormats (v : Jv) :
    cleanDesc (stripResponseFormats v) = true := by
  cases v <;>
    simp [stripResponseFormats, cleanDesc, cleanAllList_stripChildList,
      cleanAllObj_stripRootObj]

mutual

theorem eraseFmt_stripChild : ∀ v : Jv, eraseFmt (stripChild v) = eraseFmt v
  | .str _ => rfl
  | .num _ => rfl
  | .bool _ => rfl
  | .null => rfl
  | .arr xs => by simp [stripChild, eraseFmt, eraseFmtList_stripChildList xs]
  | .obj kvs => by simp [stripChild, eraseFmt, eraseFmtObj_stripChildObj kvs]

theorem eraseFmtList_stripChildList : ∀ xs : JvList,
    eraseFmtList (stripChildList xs) = eraseFmtList xs
  | .nil => rfl
  | .cons v rest => by
    simp [stripChildList, eraseFmtList, eraseFmt_stripChild v,
      eraseFmtList_stripChildList rest]

theorem eraseFmtObj_stripChildObj : ∀ kvs : JvObj,
    eraseFmtObj (stripChildObj kvs) = eraseFmtObj kvs
  | .nil => rfl
  | .cons k v rest => by
    simp only [stripChildObj]
    split
    next h =>
      have hk : k = "format" := by
        have h2 := (Bool.and_eq_true _ _).mp h
        simpa using h2.1
      simp [eraseFmtObj, hk, eraseFmtObj_stripChildObj rest]
    next h =>
      by_cases hk : k = "format"
      · simp [eraseFmtObj, hk, eraseFmtObj_stripChildObj rest]
      · simp [eraseFmtObj, hk, eraseFmt_stripChild v,
          eraseFmtObj_stripChildObj rest]

end

theorem eraseFmtObj_stripRootObj : ∀ kvs : JvObj,
    eraseFmtObj (stripRootObj kvs) = eraseFmtObj kvs
  | .nil => rfl
  | .cons k v rest => by
    by_cases hk : k = "format"
    · simp [stripRootObj, eraseFmtObj, hk, eraseFmtObj_stripRootObj rest]
    · simp [stripRootObj, eraseFmtObj, hk, eraseFmt_stripChild v,
        eraseFmtObj_stripRootObj rest]

/-- Frame lemma: outside `format` members the normalizer changes nothing —
erasing all `format` members from the output gives the same tree as erasing
them from the input. -/
theorem eraseFmt_stripResponseFormats (v : Jv) :
    eraseFmt (stripResponseFormats v) = eraseFmt v := by
  cases v <;>
    simp [stripResponseFormats, eraseFmt, eraseFmtList_stripChildList,
      eraseFmtObj_stripRootObj]

mutual

theorem stripChild_clean : ∀ v : Jv, cleanAll v = true → stripChild v = v
  | .str _, _ => rfl
  | .num _, _ => rfl
  | .bool _, _ => rfl
  | .null, _ => rfl
  | .arr xs, h => by
    simp only [cleanAll] at h
    simp [stripChild, stripChildList_clean xs h]
  | .obj kvs, h => by
    simp only [cleanAll, Bool.and_eq_true, Bool.not_eq_true'] at h
    simp [stripChild, stripChildObj_clean kvs h.1 h.2]

theorem stripChildList_clean : ∀ xs : JvList, cleanAllList xs = true →
    stripChildList xs = xs
  | .nil, _ => rfl
  | .cons v rest, h => by
    simp only [cleanAllList, Bool.and_eq_true] at h
    simp [stripChildList, stripChild_clean v h.1, stripChildList_clean rest h.2]

theorem stripChildObj_clean : ∀ kvs : JvObj, hasBadFmtEntry kvs = false →
    cleanAllObj kvs = true → stripChildObj kvs = kvs
  | .nil, _, _ => rfl
  | .cons k v rest, hb, hc => by
    simp only [hasBadFmtEntry, Bool.or_eq_false_iff] at hb
    simp only [cleanAllObj, Bool.and_eq_true] at hc
    rw [stripChildObj,
      if_neg (by simp [hb.1] : ¬((k == "format" && isBadFmt v) = true)),
      stripChild_clean v hc.1, stripChildObj_clean rest hb.2 hc.2]

end

theorem stripRootObj_clean : ∀ kvs : JvObj, cleanAllObj kvs = true →
    stripRootObj kvs = kvs
  | .nil, _ => rfl
  | .cons k v rest, h => by
    simp only [cleanAllObj, Bool.and_eq_true] at h
    simp [stripRootObj, stripChild_clean v h.1, stripRootObj_clean rest h.2]

/-- Identity lemma: a tree none of whose strict descendants carries a bad
`format` member passes through the normalizer unchanged. -/
theorem stripResponseFormats_clean (v : Jv) (h : cleanDesc v = true) :
    stripResponseFormats v = v := by
  cases v with
  | arr xs =>
    simp only [cleanDesc] at h
    simp [stripResponseFormats, stripChildList_clean xs h]
  | obj kvs =>
    simp only [cleanDesc] at h
    simp [stripResponseFormats, stripRootObj_clean kvs h]
  | str s => rfl
  | num n => rfl
  | bool b => rfl
  | null => rfl

/-- JavaScript `str.split(sep)` for a one-character separator (the source
only ever splits on `' '` and `'/'`): splitting the empty string gives
`[""]`, consecutive separators give empty segments. -/
def jsSplitAux (sep : Char) : List Char → List Char → List String
  | [], acc => [String.mk acc.reverse]
  | c :: cs, acc =>
    if c = sep then String.mk acc.reverse :: jsSplitAux sep cs []
    else jsSplitAux sep cs (c :: acc)

def jsSplit (sep : Char) (s : String) : List String :=
  jsSplitAux sep s.data []

/-- JavaScript `str.toLowerCase()` (character-wise lowering). -/
def jsToLower (s : String) : String :=
  String.mk (s.data.map Char.toLower)

/-- The verified token payload (the claims read by `checkJWT`,
src/index.js lines 79-94).  Absent properties are `none`. -/
structure Payload where
  IpList : Option (List String)
  Role : Option (List String)
  EntityId : Option String
  EntityType : Option String

/-- Outcome of the external `jwt.verify` call: either a thrown error carrying
its JS `name` and `message` (e.g. `TokenExpiredError` / "jwt expired"), or the
decoded payload. -/
inductive VerifyOut where
  | err (name message : String)
  | ok (p : Payload)

/-- A thrown JavaScript error, reduced to the two properties this code reads. -/
structure JsError where
  name : String
  message : String
deriving DecidableEq

/-- The external collaborators of the gate: `jwt.verify` (on the extracted
bearer token, `none` when the header had no second whitespace-delimited
segment) and `ip.cidrSubnet(range).contains(addr)`. -/
structure Ext where
  verify : Option String → VerifyOut
  cidrContains : String → String → Bool

/-- The slice of an inbound request the gate reads:
`request.headers.authorization` and `request.req.ip`. -/
structure Request where
  authHeader : Option String
  ipAddr : String

/-- The per-request state `checkJWT` attaches on success
(src/index.js lines 92-94). -/
structure AuthStamp where
  Roles : Option (List String)
  EntityId : String
  EntityType : String
deriving DecidableEq

/-- Effects of one gate run: whether the failure-notification sink
`global.mq.openapiFailures` was invoked, and whether `checkJWT` was entered
at all (i.e. a token was demanded). -/
structure Fx where
  sinkCalled : Bool
  jwtChecked : Bool
deriving DecidableEq

/-- JavaScript `a || d` for a string-or-absent `a`: absent and the empty
string are falsy (src/index.js lines 93-94). -/
def jsOr (v : Option String) (d : String) : String :=
  match v with
  | some s => if s = "" then d else s
  | none => d

/-- The `try` block of `checkJWT` (src/index.js lines 76-94): verify the
token, then enforce the non-empty IP allow-list claim, then build the stamp.
Errors escaping this block are rewrapped by the `catch` at lines 95-99. -/
def checkJWTTry (ext : Ext) (req : Request) (token : Option String) :
    Except JsError AuthStamp :=
  match ext.verify token with
  | .err n m => .error ⟨n, m⟩
  | .ok p =>
    match p.IpList with
    | some l =>
      if l.length ≠ 0 then
        if l.any (fun r => ext.cidrContains r req.ipAddr) then
          .ok ⟨p.Role, jsOr p.EntityId "not provided",
            jsOr p.EntityType "not provided"⟩
        else .error ⟨"Error", "IP address if out of range you permit for"⟩
      else .ok ⟨p.Role, jsOr p.EntityId "not provided",
        jsOr p.EntityType "not provided"⟩
    | none => .ok ⟨p.Role, jsOr p.EntityId "not provided",
        jsOr p.EntityType "not provided"⟩

/-- `checkJWT` (src/index.js lines 67-100).  Line 68 reads
`request.headers.authorization.split(' ')[1]` BEFORE the
`'authorization' in request.headers` guard at line 70, so an absent header
raises a TypeError right there; the `Missing authorization header` branch and
its `await global.mq.openapiFailures(...)` sink call (lines 70-74) only run
when the guard holds after the dereference succeeded, i.e. never.  The
returned `Fx` records the sink invocation; `jwtChecked` is true in every
branch because `checkJWT` was entered. -/
def checkJWT (ext : Ext) (req : Request) (entity : String) :
    Fx × Except JsError AuthStamp :=
  match req.authHeader with
  | none =>
    (⟨false, true⟩,
      .error ⟨"TypeError", "Cannot read properties of undefined (reading 'split')"⟩)
  | some h =>
    let token : Option String := (jsSplit ' ' h).get? 1
    if req.authHeader = none then
      (⟨true, true⟩,
        .error ⟨"Error", "Missing authorization header for " ++ entity⟩)
    else
      (⟨false, true⟩,
        match checkJWTTry ext req token with
        | .ok st => .ok st
        | .error e =>
          .error ⟨"Error", e.name ++ " " ++ e.message ++ " for " ++ entity⟩)

/-- The parts of `item.schema` this code reads: `schema.operationId`
(src/index.js line 111), `schema.response` (line 120), and the remaining
request-validation schemas (body/params/querystring), which the assembler
never touches. -/
structure RouteSchema where
  operationId : String
  response : Option Jv
  requestParts : Jv

/-- One entry of the parsed route table (`config.routes`): operation id, URL
template, the schema object (absent modelled as `none`), and the raw
`openapiSource['x-AuthType']` extension (absent modelled as `none`). -/
structure RouteItem where
  operationId : String
  url : String
  schema : Option RouteSchema
  xAuthType : Option (List String)

/-- What the gate decided for a request that was not denied: either it was
skipped (no token demanded) or it passed, attaching the stamp and the route's
declared auth types (`request.xAuthTypes`, src/index.js line 110). -/
inductive GateOutcome where
  | skipped
  | passed (stamp : AuthStamp) (xAuthTypes : List String)
deriving DecidableEq

/-- `checkAccess` (src/index.js lines 102-114): only routes with a truthy
`item.schema` are considered; reading `.length` of an absent
`openapiSource['x-AuthType']` raises a TypeError; the gate body runs when the
list is non-empty and no element equals the sentinel string "None"
(`const even = (element) => element === 'None'` at line 107). -/
def checkAccess (ext : Ext) (req : Request) (item : RouteItem) :
    Fx × Except JsError GateOutcome :=
  match item.schema with
  | none => (⟨false, false⟩, .ok .skipped)
  | some sch =>
    match item.xAuthType with
    | none =>
      (⟨false, false⟩,
        .error ⟨"TypeError", "Cannot read properties of undefined (reading 'length')"⟩)
    | some xs =>
      if xs.length != 0 && !xs.contains "None" then
        match checkJWT ext req sch.operationId with
        | (fx, .ok st) => (fx, .ok (.passed st xs))
        | (fx, .error e) => (fx, .error e)
      else (⟨false, false⟩, .ok .skipped)

/-- The plugin options consulted per request (src/index.js line 153); the
metrics sink (lines 146-148) only marks counters and does not affect control
flow, so it is omitted. -/
structure Opts where
  checkToken : Bool

/-- The JSON envelope `{ Status: ..., Description: ... }` sent on denial
(src/index.js lines 156 and 158). -/
structure DenyBody where
  Status : Nat
  Description : String
deriving DecidableEq

/-- Result of the `preValidation` hook: either the request proceeds down the
pipeline, or a reply was already sent (denial), which under fastify semantics
stops the request from reaching the handler. -/
inductive HookOut where
  | proceed (g : GateOutcome)
  | deny (status : Nat) (body : DenyBody)
deriving DecidableEq

/-- The dispatch test at src/index.js line 155:
`error.message.split(' ').includes('expired')`. -/
def hasWordExpired (msg : String) : Bool :=
  (jsSplit ' ' msg).contains "expired"

/-- The `preValidation` hook (src/index.js lines 145-161): when
`opts.checkToken` is set, run `checkAccess`; a thrown error is converted into
a 440 reply when its whitespace-split message contains the word "expired",
else into a 401 reply, with body `{ Status, Description: error.message }`. -/
def preValidation (opts : Opts) (ext : Ext) (req : Request) (item : RouteItem) :
    Fx × HookOut :=
  if opts.checkToken then
    match checkAccess ext req item with
    | (fx, .ok g) => (fx, .proceed g)
    | (fx, .error e) =>
      if hasWordExpired e.message then
        (fx, .deny 440 ⟨440, e.message⟩)
      else
        (fx, .deny 401 ⟨401, e.message⟩)
  else (⟨false, false⟩, .proceed .skipped)

/-- A member of the caller-supplied service object: either a callable handler
(abstract, of type `H`) or a nested namespace object mapping compound keys to
further members.  A JS object member is one value; `service[k]` being truthy
corresponds to the lookup returning `some`. -/
inductive SvcVal (H : Type) where
  | fn (h : H)
  | tbl (m : String → Option (SvcVal H))

/-- The service registry: top-level property lookup on the service object. -/
def Registry (H : Type) := String → Option (SvcVal H)

/-- `service[lowerClassName] && service[lowerClassName][compound]`
(src/index.js line 135): the nested lookup succeeds only when the first
lookup yields a (truthy) namespace object owning the compound key. -/
def nestedLookup {H : Type} (v : Option (SvcVal H)) (key : String) :
    Option (SvcVal H) :=
  match v with
  | some (.tbl m) => m key
  | _ => none

/-- The handler slot the assembler fills: either a wrapper invoking a service
member, or the always-throwing stub installed at src/index.js lines 165-167. -/
inductive HandlerK (H : Type) where
  | svc (h : SvcVal H)
  | stub (msg : String)

/-- A route as submitted to `routesInstance.route(item)`: the (possibly
normalized) schema, the handler, and whether a `preValidation` hook was
attached (the hook assignment at line 145 is reached only when resolution
succeeded; any throw inside the `try` lands in the catch before it). -/
structure Registered (H : Type) where
  operationId : String
  url : String
  schema : Option RouteSchema
  xAuthType : Option (List String)
  handler : HandlerK H
  hasPreValidation : Bool

/-- The stub route built by the `catch` (src/index.js lines 163-168): the
handler throws `Operation <operationId> not implemented`; `sch` is the schema
in whatever state it reached before the throw. -/
def stubRoute {H : Type} (item : RouteItem) (sch : Option RouteSchema) :
    Registered H :=
  { operationId := item.operationId
    url := item.url
    schema := sch
    xAuthType := item.xAuthType
    handler := .stub ("Operation " ++ item.operationId ++ " not implemented")
    hasPreValidation := false }

/-- One iteration of the `config.routes.forEach` body (src/index.js
lines 118-171), with the in-place mutations of `item` made explicit:
1. `item.schema.response` (line 120) throws when `item.schema` is absent;
2. `url.split('/')[1]`/`[2]` give the first and second path segments;
   `className.toLowerCase()` (line 125) throws when the first is absent
   (JS string concatenation renders an absent second segment "undefined");
3. the response schema, if present, is normalized in place (lines 127-129);
4. resolution: the direct key `service[controllerName]` wins, else the
   two-level lookup `service[lowerClassName][className + methodName]`,
   else `throw new Error('Service not exists')` (lines 130-141);
5. on success the `preValidation` hook is attached (line 145); on any throw
   the catch installs the stub handler and no hook. -/
def processItem {H : Type} (svc : Registry H) (item : RouteItem) :
    Registered H :=
  match item.schema with
  | none => stubRoute item none
  | some sch =>
    match (jsSplit '/' item.url).get? 1 with
    | none => stubRoute item (some sch)
    | some className =>
      let methodName := ((jsSplit '/' item.url).get? 2).getD "undefined"
      let schN : RouteSchema :=
        { sch with response := sch.response.map stripResponseFormats }
      match svc item.operationId with
      | some v =>
        { operationId := item.operationId, url := item.url,
          schema := some schN, xAuthType := item.xAuthType,
          handler := .svc v, hasPreValidation := true }
      | none =>
        match nestedLookup (svc (jsToLower className)) (className ++ methodName) with
        | some w =>
          { operationId := item.operationId, url := item.url,
            schema := some schN, xAuthType := item.xAuthType,
            handler := .svc w, hasPreValidation := true }
        | none => stubRoute item (some schN)

/-- `generateRoutes` (src/index.js lines 116-172): process the route table in
order; every item is submitted to `routesInstance.route` whether or not its
resolution succeeded. -/
def generateRoutes {H : Type} (svc : Registry H) :
    List RouteItem → List (Registered H)
  | [] => []
  | item :: rest => processItem svc item :: generateRoutes svc rest

/-- The slice of a registered route the `preValidation` closure reads. -/
def toItem {H : Type} (r : Registered H) : RouteItem :=
  { operationId := r.operationId, url := r.url, schema := r.schema,
    xAuthType := r.xAuthType }

/-- The observable outcome of one request against one registered route.
`Description` is the denial body's `Description` (or the stub's failure
message); `handlerRan` records whether a service member was invoked. -/
structure Response where
  status : Nat
  Description : Option String
  handlerRan : Bool
deriving DecidableEq

/-- Per-request semantics of the host server (fastify, an external
collaborator) for one registered route: the `preValidation` hook runs first
when attached, and a reply sent there ends the request before the handler; an
error thrown by the (stub) handler is turned into a 500 by the host's default
error handling; a service handler produces its own status `hStatus`. -/
def handleRequest {H : Type} (opts : Opts) (ext : Ext) (r : Registered H)
    (req : Request) (hStatus : Nat) : Fx × Response :=
  let fxhk : Fx × HookOut :=
    if r.hasPreValidation then preValidation opts ext req (toItem r)
    else (⟨false, false⟩, .proceed .skipped)
  match fxhk with
  | (fx, .deny s b) => (fx, ⟨s, some b.Description, false⟩)
  | (fx, .proceed _) =>
    match r.handler with
    | .svc _ => (fx, ⟨hStatus, none, true⟩)
    | .stub m => (fx, ⟨500, some m, false⟩)

theorem generateRoutes_append {H : Type} (svc : Registry H)
    (l1 l2 : List RouteItem) :
    generateRoutes svc (l1 ++ l2) = generateRoutes svc l1 ++ generateRoutes svc l2 := by
  induction l1 with
  | nil => rfl
  | cons a t ih => simp [generateRoutes, ih]

/-- C6: for every route with a response schema (and a well-formed URL, whose
first path segment exists — true of every OpenAPI path), the assembler
replaces the response schema by its normalized form, and in the normalized
tree no node (every schema node is a strict descendant of the status-code
mapping passed to the normalizer) carries a `format` drawn from the
unsupported set {int32, int64}. -/
theorem C6_normalizer_clears_formats {H : Type} (svc : Registry H)
    (item : RouteItem) (sch : RouteSchema) (resp : Jv) (cls : String)
    (hs : item.schema = some sch) (hr : sch.response = some resp)
    (hc : (jsSplit '/' item.url).get? 1 = some cls) :
    (processItem svc item).schema =
      some { sch with response := some (stripResponseFormats resp) } ∧
    cleanDesc (stripResponseFormats resp) = true := by
  refine ⟨?_, cleanDesc_stripResponseFormats resp⟩
  simp only [processItem, hs, hc]
  cases hd : svc item.operationId with
  | some v => simp [hr]
  | none =>
    cases hn : nestedLookup (svc (jsToLower cls))
        (cls ++ ((jsSplit '/' item.url).get? 2).getD "undefined") with
    | some w => simp [hr]
    | none => simp [stubRoute, hr]

def c6svc : Registry Nat := fun _ => none

def c6resp : Jv :=
  .obj (.cons "200"
    (.obj (.cons "type" (.str "integer")
      (.cons "format" (.str "int64") .nil))) .nil)

def c6item : RouteItem :=
  ⟨"getWidget", "/widget/get", some ⟨"getWidget", some c6resp, Jv.null⟩, some []⟩

theorem C6_witness :
    (processItem c6svc c6item).schema =
      some { operationId := "getWidget",
             response := some (stripResponseFormats c6resp),
             requestParts := Jv.null } ∧
    cleanDesc (stripResponseFormats c6resp) = true :=
  C6_normalizer_clears_formats c6svc c6item _ c6resp "widget" rfl rfl rfl

/-- C7: the normalizer is a pass over the response schema tree only — the
assembler leaves the request-validation schemas and the operation id of the
schema object unchanged — and inside the response tree nothing but the
cleared `format` entries changes: erasing all `format` members from the
normalized tree yields the same tree as erasing them from the input, and a
tree with no unsupported `format` on any strict descendant is returned
verbatim. -/
theorem C7_normalizer_frame {H : Type} (svc : Registry H)
    (item : RouteItem) (sch : RouteSchema) (cls : String)
    (hs : item.schema = some sch)
    (hc : (jsSplit '/' item.url).get? 1 = some cls) :
    ((processItem svc item).schema).map RouteSchema.requestParts =
      some sch.requestParts ∧
    ((processItem svc item).schema).map RouteSchema.operationId =
      some sch.operationId ∧
    (∀ v : Jv, eraseFmt (stripResponseFormats v) = eraseFmt v) ∧
    (∀ v : Jv, cleanDesc v = true → stripResponseFormats v = v) := by
  refine ⟨?_, ?_, eraseFmt_stripResponseFormats, stripResponseFormats_clean⟩ <;>
  · simp only [processItem, hs, hc]
    cases hd : svc item.operationId with
    | some v => simp
    | none =>
      cases hn : nestedLookup (svc (jsToLower cls))
          (cls ++ ((jsSplit '/' item.url).get? 2).getD "undefined") with
      | some w => simp
      | none => simp [stubRoute]

def c7svc : Registry Nat := fun k => if k = "putWidget" then some (.fn 3) else none

def c7req : Jv := .obj (.cons "body" (.obj (.cons "format" (.str "int32") .nil)) .nil)

def c7item : RouteItem :=
  ⟨"putWidget", "/widget/put", some ⟨"putWidget", some c6resp, c7req⟩, some []⟩

theorem C7_witness :
    ((processItem c7svc c7item).schema).map RouteSchema.requestParts = some c7req ∧
    ((processItem c7svc c7item).schema).map RouteSchema.operationId = some "putWidget" ∧
    (∀ v : Jv, eraseFmt (stripResponseFormats v) = eraseFmt v) ∧
    (∀ v : Jv, cleanDesc v = true → stripResponseFormats v = v) :=
  C7_normalizer_frame c7svc c7item _ "widget" rfl rfl

/-- C4: the resolver tries the conventions in a fixed order with first match
winning: a (truthy) member stored directly under the operation identifier is
used exactly as found — regardless of any namespaced entry, so the direct key
wins when both match — and otherwise the two-level lookup keyed by the
lower-cased first URL path segment, containing the compound key built by
concatenating the first and second path segments, supplies the handler. -/
theorem C4_resolver_order {H : Type} (svc : Registry H)
    (item : RouteItem) (sch : RouteSchema) (cls mth : String)
    (hs : item.schema = some sch)
    (h1 : (jsSplit '/' item.url).get? 1 = some cls)
    (h2 : (jsSplit '/' item.url).get? 2 = some mth) :
    (∀ v : SvcVal H, svc item.operationId = some v →
      (processItem svc item).handler = .svc v) ∧
    (svc item.operationId = none →
      ∀ w : SvcVal H, nestedLookup (svc (jsToLower cls)) (cls ++ mth) = some w →
        (processItem svc item).handler = .svc w) := by
  constructor
  · intro v hv
    simp only [processItem, hs, h1, hv]
  · intro hd w hw
    simp only [processItem, hs, h1, h2, Option.getD_some, hd, hw]

def c4svcBoth : Registry Nat := fun k =>
  if k = "getWidget" then some (.fn 1)
  else if k = "widget" then
    some (.tbl (fun c => if c = "widgetget" then some (.fn 2) else none))
  else none

def c4svcNested : Registry Nat := fun k =>
  if k = "widget" then
    some (.tbl (fun c => if c = "widgetget" then some (.fn 2) else none))
  else none

def c4item : RouteItem :=
  ⟨"getWidget", "/widget/get", some ⟨"getWidget", none, Jv.null⟩, some []⟩

theorem C4_witness :
    ((∀ v : SvcVal Nat, c4svcBoth "getWidget" = some v →
        (processItem c4svcBoth c4item).handler = .svc v) ∧
      (c4svcBoth "getWidget" = none →
        ∀ w : SvcVal Nat,
          nestedLookup (c4svcBoth (jsToLower "widget")) ("widget" ++ "get") = some w →
            (processItem c4svcBoth c4item).handler = .svc w)) ∧
    ((∀ v : SvcVal Nat, c4svcNested "getWidget" = some v →
        (processItem c4svcNested c4item).handler = .svc v) ∧
      (c4svcNested "getWidget" = none →
        ∀ w : SvcVal Nat,
          nestedLookup (c4svcNested (jsToLower "widget")) ("widget" ++ "get") = some w →
            (processItem c4svcNested c4item).handler = .svc w)) :=
  ⟨C4_resolver_order c4svcBoth c4item _ "widget" "get" rfl rfl rfl,
   C4_resolver_order c4svcNested c4item _ "widget" "get" rfl rfl rfl⟩

/-- C5: for a route matching neither convention, the installed handler is the
always-failing stub whose message names the missing operation identifier; the
route is still part of the registered table, failing with a host-level 500
(and that message) only when it is actually invoked; and the processing of
every sibling route, before or after it, is unaffected. -/
theorem C5_unresolved_stub {H : Type} (svc : Registry H)
    (item : RouteItem) (sch : RouteSchema) (cls : String)
    (opts : Opts) (ext : Ext) (req : Request) (hStatus : Nat)
    (pre post : List RouteItem)
    (hs : item.schema = some sch)
    (h1 : (jsSplit '/' item.url).get? 1 = some cls)
    (hd : svc item.operationId = none)
    (hn : nestedLookup (svc (jsToLower cls))
      (cls ++ ((jsSplit '/' item.url).get? 2).getD "undefined") = none) :
    (processItem svc item).handler =
      .stub ("Operation " ++ item.operationId ++ " not implemented") ∧
    (handleRequest opts ext (processItem svc item) req hStatus).2 =
      ⟨500, some ("Operation " ++ item.operationId ++ " not implemented"), false⟩ ∧
    generateRoutes svc (pre ++ item :: post) =
      generateRoutes svc pre ++ processItem svc item :: generateRoutes svc post := by
  have hp : processItem svc item = stubRoute item
      (some { sch with response := sch.response.map stripResponseFormats }) := by
    simp only [processItem, hs, h1, hd, hn]
  refine ⟨?_, ?_, ?_⟩
  · rw [hp]; rfl
  · rw [hp]; rfl
  · exact generateRoutes_append svc pre (item :: post)

def c5svc : Registry Nat := fun _ => none

def c5item : RouteItem :=
  ⟨"ghost", "/widget/get", some ⟨"ghost", none, Jv.null⟩, some []⟩

def c5sibling : RouteItem :=
  ⟨"real", "/widget/put", some ⟨"real", none, Jv.null⟩, some []⟩

theorem C5_witness :
    (processItem c5svc c5item).handler =
      .stub ("Operation " ++ "ghost" ++ " not implemented") ∧
    (handleRequest ⟨true⟩ ⟨fun _ => .err "E" "m", fun _ _ => false⟩
        (processItem c5svc c5item) ⟨none, "1.1.1.1"⟩ 200).2 =
      ⟨500, some ("Operation " ++ "ghost" ++ " not implemented"), false⟩ ∧
    generateRoutes c5svc ([c5sibling] ++ c5item :: [c5sibling]) =
      generateRoutes c5svc [c5sibling] ++
        processItem c5svc c5item :: generateRoutes c5svc [c5sibling] :=
  C5_unresolved_stub c5svc c5item _ "widget" ⟨true⟩
    ⟨fun _ => .err "E" "m", fun _ _ => false⟩ ⟨none, "1.1.1.1"⟩ 200
    [c5sibling] [c5sibling] rfl rfl rfl rfl

def c1ext : Ext := ⟨fun _ => .err "JsonWebTokenError" "jwt malformed", fun _ _ => false⟩

def c1item : RouteItem :=
  ⟨"getPet", "/pet/get", some ⟨"getPet", none, Jv.null⟩, some ["JWT"]⟩

/-- C1 (code bug, src/index.js line 68): a request without an `authorization`
header to a token-guarded route is answered 401 as claimed, but the failure is
NOT the `MissingAuthHeader` error carrying the operation identifier, and the
failure-notification sink is never invoked (`sinkCalled = false`): line 68
dereferences the absent header before the line-70 guard, so the request dies
with the raw TypeError message and the guard with its
`await global.mq.openapiFailures(...)` call is unreachable. -/
theorem C1_missing_header_typeerror :
    preValidation ⟨true⟩ c1ext ⟨none, "10.0.0.1"⟩ c1item =
      (⟨false, true⟩,
        .deny 401 ⟨401, "Cannot read properties of undefined (reading 'split')"⟩) := rfl

/-- C9: when the gate flag is on, a route whose raw metadata lacks the
`x-AuthType` key entirely is denied with 401 — reading `.length` of the
missing list throws, and the hook converts the TypeError into a denial —
rather than being treated like a route with no auth requirement. -/
theorem C9_missing_authtype_denied (opts : Opts) (ext : Ext) (req : Request)
    (item : RouteItem) (sch : RouteSchema)
    (ht : opts.checkToken = true) (hs : item.schema = some sch)
    (hx : item.xAuthType = none) :
    preValidation opts ext req item =
      (⟨false, false⟩,
        .deny 401 ⟨401, "Cannot read properties of undefined (reading 'length')"⟩) := by
  simp only [preValidation, checkAccess, ht, hs, hx, if_true]
  rfl

def c9ext : Ext := ⟨fun _ => .ok ⟨none, none, none, none⟩, fun _ _ => true⟩

def c9item : RouteItem :=
  ⟨"listPets", "/pet/list", some ⟨"listPets", none, Jv.null⟩, none⟩

theorem C9_witness :
    preValidation ⟨true⟩ c9ext ⟨some "Bearer tk", "10.0.0.9"⟩ c9item =
      (⟨false, false⟩,
        .deny 401 ⟨401, "Cannot read properties of undefined (reading 'length')"⟩) :=
  C9_missing_authtype_denied ⟨true⟩ c9ext ⟨some "Bearer tk", "10.0.0.9"⟩ c9item
    ⟨"listPets", none, Jv.null⟩ rfl rfl rfl

/-- C10: the 440-versus-401 decision looks only at whether the
whitespace-split error message contains the exact word "expired".
(i) A failure that is not an expired token — the signature verified fine and
the IP allow-list check failed — is answered 440, because the operation
identifier "expired" is interpolated into the message as a standalone word.
(ii) An expiry failure (the verifier's `TokenExpiredError`, here with its
alternative "maxAge exceeded" message, which lacks the standalone word) is
answered 401. -/
theorem C10_expired_word_dispatch :
    (preValidation ⟨true⟩
        ⟨fun _ => .ok ⟨some ["192.168.0.0/16"], none, none, none⟩, fun _ _ => false⟩
        ⟨some "Bearer t", "8.8.8.8"⟩
        ⟨"expired", "/admin/reset", some ⟨"expired", none, Jv.null⟩, some ["JWT"]⟩).2 =
      .deny 440 ⟨440, "Error IP address if out of range you permit for for expired"⟩ ∧
    (preValidation ⟨true⟩
        ⟨fun _ => .err "TokenExpiredError" "maxAge exceeded", fun _ _ => false⟩
        ⟨some "Bearer t", "8.8.8.8"⟩
        ⟨"getPet", "/pet/get", some ⟨"getPet", none, Jv.null⟩, some ["JWT"]⟩).2 =
      .deny 401 ⟨401, "TokenExpiredError maxAge exceeded for getPet"⟩ :=
  ⟨rfl, rfl⟩

def c2ext : Ext := ⟨fun _ => .err "JsonWebTokenError" "jwt must be provided", fun _ _ => false⟩

def c2itemMixed : RouteItem :=
  ⟨"getPet", "/pet/get", some ⟨"getPet", none, Jv.null⟩, some ["JWT", "None"]⟩

def c2itemLower : RouteItem :=
  ⟨"getPet", "/pet/get", some ⟨"getPet", none, Jv.null⟩, some ["none"]⟩

/-- C2 counterexample.  The claim's "gate runs iff ... not all declared
auth-type values equal the sentinel" is false on the code, in both directions
of the casing question:
(i) for declared `["JWT", "None"]` — not all values equal the sentinel under
either casing — no token is demanded (`jwtChecked = false`) and the request
proceeds to the handler, because the code skips the gate as soon as ANY value
equals "None";
(ii) for declared `["none"]` — all values equal the lower-case sentinel — the
gate DOES run (`jwtChecked = true`): the code compares against the
capitalized string "None" only. -/
theorem C2_counterexample :
    ((preValidation ⟨true⟩ c2ext ⟨none, "1.2.3.4"⟩ c2itemMixed).1.jwtChecked = false ∧
      (preValidation ⟨true⟩ c2ext ⟨none, "1.2.3.4"⟩ c2itemMixed).2 = .proceed .skipped ∧
      ¬(∀ e ∈ ["JWT", "None"], e = "none") ∧
      ¬(∀ e ∈ ["JWT", "None"], e = "None")) ∧
    (preValidation ⟨true⟩ c2ext ⟨none, "1.2.3.4"⟩ c2itemLower).1.jwtChecked = true := by
  refine ⟨⟨rfl, rfl, ?_, ?_⟩, rfl⟩ <;> decide

theorem checkJWT_entered (ext : Ext) (req : Request) (entity : String) :
    (checkJWT ext req entity).1.jwtChecked = true := by
  rcases req with ⟨ah, ip⟩
  cases ah with
  | none => rfl
  | some h => simp [checkJWT]

theorem checkAccess_fx (ext : Ext) (req : Request) (item : RouteItem)
    (sch : RouteSchema) (xs : List String)
    (hs : item.schema = some sch) (hx : item.xAuthType = some xs) :
    (checkAccess ext req item).1 =
      if xs.length != 0 && !xs.contains "None" then
        (checkJWT ext req sch.operationId).1
      else ⟨false, false⟩ := by
  simp only [checkAccess, hs, hx]
  by_cases hc : (xs.length != 0 && !xs.contains "None") = true
  · rw [if_pos hc, if_pos hc]
    rcases hj : checkJWT ext req sch.operationId with ⟨fx, r⟩
    cases r <;> simp
  · rw [if_neg hc, if_neg hc]

theorem preValidation_fx (opts : Opts) (ext : Ext) (req : Request)
    (item : RouteItem) :
    (preValidation opts ext req item).1 =
      if opts.checkToken then (checkAccess ext req item).1
      else ⟨false, false⟩ := by
  by_cases ht : opts.checkToken = true
  · simp only [preValidation, ht, if_true]
    rcases hca : checkAccess ext req item with ⟨fx, r⟩
    cases r with
    | ok g => simp
    | error e => by_cases hw : hasWordExpired e.message = true <;> simp [hw]
  · have ht2 : opts.checkToken = false := by simpa using ht
    simp [preValidation, ht2]

theorem gateCond_iff (xs : List String) :
    (xs.length != 0 && !xs.contains "None") = true ↔
      (xs ≠ [] ∧ xs.contains "None" = false) := by
  simp [Bool.and_eq_true, bne_iff_ne, Bool.not_eq_true', List.length_eq_zero]

/-- C2 (amended): the gate — `checkJWT`, the demand for a token — runs if and
only if the global `checkToken` flag is enabled AND the route declares at
least one auth-type value AND NO declared value equals the capitalized
sentinel string "None" (the code skips the gate as soon as any value is
"None"; the comparison is case-sensitive).  In particular a route declaring
exactly `["None"]` demands no token and proceeds straight to the handler. -/
theorem C2_amended_gate_condition (opts : Opts) (ext : Ext) (req : Request)
    (item : RouteItem) (sch : RouteSchema) (xs : List String)
    (hs : item.schema = some sch) (hx : item.xAuthType = some xs) :
    ((preValidation opts ext req item).1.jwtChecked = true ↔
      (opts.checkToken = true ∧ xs ≠ [] ∧ xs.contains "None" = false)) ∧
    (xs = ["None"] →
      preValidation opts ext req item = (⟨false, false⟩, .proceed .skipped)) := by
  constructor
  · rw [preValidation_fx, checkAccess_fx ext req item sch xs hs hx]
    by_cases ht : opts.checkToken = true
    · rw [if_pos ht]
      by_cases hc : (xs.length != 0 && !xs.contains "None") = true
      · rw [if_pos hc]
        obtain ⟨hne, hcon⟩ := (gateCond_iff xs).mp hc
        have hcon2 : "None" ∉ xs := by simpa using hcon
        simp [checkJWT_entered, ht, hne, hcon, hcon2]
      · rw [if_neg hc]
        simp only [ht, true_and]
        constructor
        · intro hfalse; exact absurd hfalse (by simp)
        · intro hrhs; exact absurd ((gateCond_iff xs).mpr hrhs) hc
    · rw [if_neg ht]
      simp [ht]
  · intro hxs
    subst hxs
    by_cases ht : opts.checkToken = true
    · simp [preValidation, checkAccess, hs, hx, ht]
    · have ht2 : opts.checkToken = false := by simpa using ht
      simp [preValidation, ht2]

def c2wExt : Ext := ⟨fun _ => .ok ⟨none, none, none, none⟩, fun _ _ => true⟩

def c2wItem : RouteItem :=
  ⟨"openPet", "/pet/open", some ⟨"openPet", none, Jv.null⟩, some ["None"]⟩

theorem C2_amended_witness :
    (((preValidation ⟨true⟩ c2wExt ⟨some "Bearer t", "5.5.5.5"⟩ c2wItem).1.jwtChecked = true ↔
      ((⟨true⟩ : Opts).checkToken = true ∧ (["None"] : List String) ≠ [] ∧
        (["None"] : List String).contains "None" = false)) ∧
    ((["None"] : List String) = ["None"] →
      preValidation ⟨true⟩ c2wExt ⟨some "Bearer t", "5.5.5.5"⟩ c2wItem =
        (⟨false, false⟩, .proceed .skipped))) :=
  C2_amended_gate_condition ⟨true⟩ c2wExt ⟨some "Bearer t", "5.5.5.5"⟩ c2wItem
    ⟨"openPet", none, Jv.null⟩ ["None"] rfl rfl

def c3ext : Ext :=
  ⟨fun _ => .ok ⟨some ["10.0.0.0/8"], some ["admin"], none, none⟩, fun _ _ => false⟩

def c3item : RouteItem :=
  ⟨"expired", "/session/renew", some ⟨"expired", none, Jv.null⟩, some ["JWT"]⟩

/-- C3 counterexample: a denial whose failure is NOT an expired token —
`verify` succeeds, the IP allow-list check fails — is finalized with status
440, because the operation identifier "expired" reaches the error message as
a standalone word.  So "440 if and only if the failure is an expired token"
is false on the code. -/
theorem C3_counterexample :
    preValidation ⟨true⟩ c3ext ⟨some "Bearer abc", "1.2.3.4"⟩ c3item =
      (⟨false, true⟩,
        .deny 440 ⟨440, "Error IP address if out of range you permit for for expired"⟩) := rfl

/-- C3 (amended): a request denied by the gate is finalized with status 440
and body `{ Status: 440, Description: <message> }` if and only if the
whitespace-split error message contains the exact word "expired" (true of the
verifier's standard "jwt expired" expiry message, but the test is purely
textual), and with status 401 and the same body shape otherwise; the real
handler is never invoked on denial. -/
theorem C3_amended_denial_dispatch {H : Type} (opts : Opts) (ext : Ext)
    (req : Request) (r : Registered H) (e : JsError) (hStatus : Nat)
    (ht : opts.checkToken = true) (hp : r.hasPreValidation = true)
    (he : (checkAccess ext req (toItem r)).2 = .error e) :
    preValidation opts ext req (toItem r) =
      ((checkAccess ext req (toItem r)).1,
        .deny (if hasWordExpired e.message then 440 else 401)
          ⟨if hasWordExpired e.message then 440 else 401, e.message⟩) ∧
    (handleRequest opts ext r req hStatus).2 =
      ⟨if hasWordExpired e.message then 440 else 401, some e.message, false⟩ := by
  have hpre : preValidation opts ext req (toItem r) =
      ((checkAccess ext req (toItem r)).1,
        .deny (if hasWordExpired e.message then 440 else 401)
          ⟨if hasWordExpired e.message then 440 else 401, e.message⟩) := by
    simp only [preValidation, ht, if_true]
    rcases hca : checkAccess ext req (toItem r) with ⟨fx, rr⟩
    rw [hca] at he
    have he2 : rr = .error e := he
    subst he2
    by_cases hw : hasWordExpired e.message = true <;> simp [hw]
  refine ⟨hpre, ?_⟩
  simp only [handleRequest, hp, if_true, hpre]

def c3wExt : Ext := ⟨fun _ => .err "JsonWebTokenError" "invalid signature", fun _ _ => false⟩

def c3wRoute : Registered Nat :=
  { operationId := "getPet", url := "/pet/get",
    schema := some ⟨"getPet", none, Jv.null⟩, xAuthType := some ["JWT"],
    handler := .svc (.fn 0), hasPreValidation := true }

theorem C3_amended_witness :
    preValidation ⟨true⟩ c3wExt ⟨some "Bearer zz", "2.2.2.2"⟩ (toItem c3wRoute) =
      ((checkAccess c3wExt ⟨some "Bearer zz", "2.2.2.2"⟩ (toItem c3wRoute)).1,
        .deny
          (if hasWordExpired "JsonWebTokenError invalid signature for getPet" then 440 else 401)
          ⟨if hasWordExpired "JsonWebTokenError invalid signature for getPet" then 440 else 401,
            "JsonWebTokenError invalid signature for getPet"⟩) ∧
    (handleRequest ⟨true⟩ c3wExt c3wRoute ⟨some "Bearer zz", "2.2.2.2"⟩ 200).2 =
      ⟨if hasWordExpired "JsonWebTokenError invalid signature for getPet" then 440 else 401,
        some "JsonWebTokenError invalid signature for getPet", false⟩ :=
  C3_amended_denial_dispatch ⟨true⟩ c3wExt ⟨some "Bearer zz", "2.2.2.2"⟩ c3wRoute
    ⟨"Error", "JsonWebTokenError invalid signature for getPet"⟩ 200 rfl rfl rfl

def c8ext : Ext :=
  ⟨fun _ => .ok ⟨some ["172.16.0.0/12"], some ["user"], none, none⟩, fun _ _ => false⟩

def c8item : RouteItem :=
  ⟨"expired", "/billing/close", some ⟨"expired", none, Jv.null⟩, some ["ApiKey"]⟩

/-- C8 counterexample: the claim's unconditional "the response status is 401"
for an IP-allow-list denial is false — for an operation identifier that
contributes the standalone word "expired" to the message, the very same
IP-range failure is answered 440. -/
theorem C8_counterexample :
    (preValidation ⟨true⟩ c8ext ⟨some "Bearer tk", "9.9.9.9"⟩ c8item).2 =
      .deny 440 ⟨440, "Error IP address if out of range you permit for for expired"⟩ := rfl

/-- C8 (amended): for a request with a validly-signed token whose payload
carries a non-empty IP allow-list claim: if the caller's IP lies in no CIDR
range of the list, the gate fails with the IP-range error, and the response
status is 401 — provided the whitespace-split failure message (which
interpolates the operation identifier) does not contain the word "expired",
in which case the message-driven dispatch yields 440 instead; if the IP lies
in at least one range, the request proceeds, stamped with the role list, the
entity id and entity type (each defaulting to "not provided" when absent or
empty), and the route's declared auth-types. -/
theorem C8_amended_ip_check (opts : Opts) (ext : Ext) (req : Request)
    (item : RouteItem) (sch : RouteSchema) (xs : List String) (h : String)
    (p : Payload) (l : List String)
    (ht : opts.checkToken = true)
    (hs : item.schema = some sch)
    (hx : item.xAuthType = some xs)
    (hxs : (xs.length != 0 && !xs.contains "None") = true)
    (hh : req.authHeader = some h)
    (hv : ext.verify ((jsSplit ' ' h).get? 1) = .ok p)
    (hip : p.IpList = some l)
    (hl : l ≠ []) :
    (l.any (fun rg => ext.cidrContains rg req.ipAddr) = false →
      (checkAccess ext req item).2 =
        .error ⟨"Error",
          "Error IP address if out of range you permit for for " ++ sch.operationId⟩ ∧
      (hasWordExpired
          ("Error IP address if out of range you permit for for " ++ sch.operationId) =
            false →
        (preValidation opts ext req item).2 =
          .deny 401 ⟨401,
            "Error IP address if out of range you permit for for " ++ sch.operationId⟩)) ∧
    (l.any (fun rg => ext.cidrContains rg req.ipAddr) = true →
      (preValidation opts ext req item).2 =
        .proceed (.passed
          ⟨p.Role, jsOr p.EntityId "not provided", jsOr p.EntityType "not provided"⟩
          xs)) := by
  have hlen : l.length ≠ 0 := fun h0 => hl (List.length_eq_zero.mp h0)
  constructor
  · intro hfail
    have htry : checkJWTTry ext req ((jsSplit ' ' h).get? 1) =
        .error ⟨"Error", "IP address if out of range you permit for"⟩ := by
      simp only [checkJWTTry, hv, hip, if_pos hlen]
      rw [if_neg (by simp [hfail])]
    have hjwt : checkJWT ext req sch.operationId =
        (⟨false, true⟩, .error ⟨"Error",
          "Error IP address if out of range you permit for for " ++ sch.operationId⟩) := by
      simp only [checkJWT, hh]
      rw [if_neg (by simp : ¬((some h : Option String) = none))]
      rw [htry]
      rfl
    have hca : checkAccess ext req item = (⟨false, true⟩, .error ⟨"Error",
        "Error IP address if out of range you permit for for " ++ sch.operationId⟩) := by
      simp only [checkAccess, hs, hx]
      rw [if_pos hxs, hjwt]
    refine ⟨by rw [hca], ?_⟩
    intro hw
    simp only [preValidation, ht, if_true, hca]
    rw [if_neg (by simp [hw])]
  · intro hok
    have htry : checkJWTTry ext req ((jsSplit ' ' h).get? 1) =
        .ok ⟨p.Role, jsOr p.EntityId "not provided", jsOr p.EntityType "not provided"⟩ := by
      simp only [checkJWTTry, hv, hip, if_pos hlen]
      rw [if_pos hok]
    have hjwt : checkJWT ext req sch.operationId =
        (⟨false, true⟩, .ok ⟨p.Role, jsOr p.EntityId "not provided",
          jsOr p.EntityType "not provided"⟩) := by
      simp only [checkJWT, hh]
      rw [if_neg (by simp : ¬((some h : Option String) = none))]
      rw [htry]
    have hca : checkAccess ext req item = (⟨false, true⟩,
        .ok (.passed ⟨p.Role, jsOr p.EntityId "not provided",
          jsOr p.EntityType "not provided"⟩ xs)) := by
      simp only [checkAccess, hs, hx]
      rw [if_pos hxs, hjwt]
    simp only [preValidation, ht, if_true, hca]

def c8wExt : Ext :=
  ⟨fun _ => .ok ⟨some ["10.0.0.0/8"], some ["admin"], some "", none⟩,
   fun rg a => rg == "10.0.0.0/8" && a == "7.7.7.7"⟩

def c8wItem : RouteItem :=
  ⟨"closeAccount", "/account/close", some ⟨"closeAccount", none, Jv.null⟩, some ["JWT"]⟩

theorem C8_amended_witness :
    ((["10.0.0.0/8"] : List String).any
        (fun rg => c8wExt.cidrContains rg (Request.mk (some "Bearer tok") "7.7.7.7").ipAddr) =
          false →
      (checkAccess c8wExt ⟨some "Bearer tok", "7.7.7.7"⟩ c8wItem).2 =
        .error ⟨"Error",
          "Error IP address if out of range you permit for for " ++ "closeAccount"⟩ ∧
      (hasWordExpired
          ("Error IP address if out of range you permit for for " ++ "closeAccount") = false →
        (preValidation ⟨true⟩ c8wExt ⟨some "Bearer tok", "7.7.7.7"⟩ c8wItem).2 =
          .deny 401 ⟨401,
            "Error IP address if out of range you permit for for " ++ "closeAccount"⟩)) ∧
    ((["10.0.0.0/8"] : List String).any
        (fun rg => c8wExt.cidrContains rg (Request.mk (some "Bearer tok") "7.7.7.7").ipAddr) =
          true →
      (preValidation ⟨true⟩ c8wExt ⟨some "Bearer tok", "7.7.7.7"⟩ c8wItem).2 =
        .proceed (.passed
          ⟨some ["admin"], jsOr (some "") "not provided", jsOr none "not provided"⟩
          ["JWT"])) :=
  C8_amended_ip_check ⟨true⟩ c8wExt ⟨some "Bearer tok", "7.7.7.7"⟩ c8wItem
    ⟨"closeAccount", none, Jv.null⟩ ["JWT"] "Bearer tok"
    ⟨some ["10.0.0.0/8"], some ["admin"], some "", none⟩ ["10.0.0.0/8"]
    rfl rfl rfl rfl rfl rfl rfl (by simp)

end OpenapiGlue
